import Mathlib

/-!
Verification development for the ray tracer's core (geometry kernel,
kd-tree and octree spatial partitioners, sphere/triangle primitives and
the recursive tracer).

Floating-point numbers (`f64`) are modelled by exact arithmetic: `ℚ` for
the purely algebraic parts (slab tests, kd-tree and octree build and
traversal, which never take square roots) and `ℝ` for the parts that call
`sqrt` (sphere and triangle intersection, `trace_ray`).  `f64::total_cmp`
and `partial_cmp` coincide with the ordinary order on these models since
no NaN or infinity arises.  The thread-local RNG used for normal jitter
is modelled by an explicit jitter-vector parameter; every theorem
quantifies over it.
-/

namespace RayTracer

/-- 3-component vector over `ℚ` (models `glam::DVec3` for the parts of the
code that never take square roots). -/
structure Vec3 where
  x : ℚ
  y : ℚ
  z : ℚ
deriving DecidableEq, Repr

namespace Vec3

def add (a b : Vec3) : Vec3 := ⟨a.x + b.x, a.y + b.y, a.z + b.z⟩

def sub (a b : Vec3) : Vec3 := ⟨a.x - b.x, a.y - b.y, a.z - b.z⟩

def dot (a b : Vec3) : ℚ := a.x * b.x + a.y * b.y + a.z * b.z

def lengthSquared (a : Vec3) : ℚ := a.dot a

/-- `glam::DVec3::distance_squared`. -/
def distanceSquared (a b : Vec3) : ℚ := (sub a b).lengthSquared

/-- Componentwise reciprocal (`glam::DVec3::recip`).  `1/0` is `0` in `ℚ`
where `f64` yields `inf`; the slab test only reads a component of
`dir_recip` under a guard that the matching `dir` component is nonzero,
so the value at zero is never consumed. -/
def recip (a : Vec3) : Vec3 := ⟨1 / a.x, 1 / a.y, 1 / a.z⟩

/-- Component access `v[i]` (`glam` indexing; the kd-tree only passes
axes reduced mod 3, so indices ≥ 2 select `z`). -/
def get (v : Vec3) : Nat → ℚ
  | 0 => v.x
  | 1 => v.y
  | _ => v.z

/-- Replace one component (used only to state axis-independence). -/
def set (v : Vec3) : Nat → ℚ → Vec3
  | 0, q => ⟨q, v.y, v.z⟩
  | 1, q => ⟨v.x, q, v.z⟩
  | _, q => ⟨v.x, v.y, q⟩

end Vec3

/-- `Ray`: origin, direction and the cached componentwise reciprocal of
the direction (`geometry.rs`). -/
structure Ray where
  origin : Vec3
  dir : Vec3
  dirRecip : Vec3
deriving DecidableEq, Repr

/-- Axis-aligned bounding box (`geometry.rs`). -/
structure AABBox where
  min : Vec3
  max : Vec3
deriving DecidableEq, Repr

instance : Inhabited AABBox := ⟨⟨⟨0, 0, 0⟩, ⟨0, 0, 0⟩⟩⟩

namespace AABBox

/-- Modelled from the spec: `AABBox::merge` ("merge (bounding union)",
spec §3) is called by the kd-tree build but its definition is not among
the provided source files; the bounding union is the componentwise min
of the two minima and max of the two maxima. -/
def merge (a b : AABBox) : AABBox :=
  ⟨⟨Min.min a.min.x b.min.x, Min.min a.min.y b.min.y, Min.min a.min.z b.min.z⟩,
   ⟨Max.max a.max.x b.max.x, Max.max a.max.y b.max.y, Max.max a.max.z b.max.z⟩⟩

/-- `AABBox::new` (`geometry.rs`): normalises min/max componentwise. -/
def new (a b : Vec3) : AABBox :=
  ⟨⟨Min.min a.x b.x, Min.min a.y b.y, Min.min a.z b.z⟩,
   ⟨Max.max a.x b.x, Max.max a.y b.y, Max.max a.z b.z⟩⟩

/-- `AABBox::octants` (`geometry.rs`): the 8 sub-boxes obtained by
splitting at the centre, in the source's order. -/
def octants (s : AABBox) : List AABBox :=
  let middle : Vec3 := ⟨(s.min.x + s.max.x) / 2, (s.min.y + s.max.y) / 2, (s.min.z + s.max.z) / 2⟩
  [ new s.min middle,
    new ⟨s.max.x, s.min.y, s.min.z⟩ middle,
    new ⟨s.min.x, s.max.y, s.min.z⟩ middle,
    new ⟨s.min.x, s.min.y, s.max.z⟩ middle,
    new s.max middle,
    new ⟨s.min.x, s.max.y, s.max.z⟩ middle,
    new ⟨s.max.x, s.min.y, s.max.z⟩ middle,
    new ⟨s.max.x, s.max.y, s.min.z⟩ middle ]

/-- `AABBox::intersect_other` (`geometry.rs`): per-axis closed-interval
overlap, `!(b.0 > a.1 || a.0 > b.1)` on each axis. -/
def intersectOther (a b : AABBox) : Bool :=
  (!(decide (a.max.x < b.min.x) || decide (b.max.x < a.min.x)))
    && (!(decide (a.max.y < b.min.y) || decide (b.max.y < a.min.y)))
    && (!(decide (a.max.z < b.min.z) || decide (b.max.z < a.min.z)))

/-- One slab-test update: tighten the running `[tmin, tmax]` window with
one axis's entry/exit distances.  The window's components are `none`
while they still hold their start values `-inf` / `+inf`. -/
def tighten (w : Option ℚ × Option ℚ) (t1 t2 : ℚ) : Option ℚ × Option ℚ :=
  ((match w.1 with
    | none => some (Min.min t1 t2)
    | some a => some (Max.max a (Min.min t1 t2))),
   (match w.2 with
    | none => some (Max.max t1 t2)
    | some a => some (Min.min a (Max.max t1 t2))))

/-- The slab method's final test `tmax >= tmin`, vacuously true while
either bound still holds its infinite start value; on success the
untouched input ray is returned (`Some(ray)`). -/
def finishSlab (w : Option ℚ × Option ℚ) (ray : Ray) : Option Ray :=
  match w with
  | (some lo, some hi) => if lo ≤ hi then some ray else none
  | _ => some ray

/-- `<AABBox as Intersect>::intersect` (`geometry.rs`): the slab method.
An axis whose direction component is zero is skipped. -/
def intersectRay (s : AABBox) (ray : Ray) : Option Ray :=
  let w0 : Option ℚ × Option ℚ := (none, none)
  let w1 := if ray.dir.x ≠ 0 then
      tighten w0 ((s.min.x - ray.origin.x) * ray.dirRecip.x)
        ((s.max.x - ray.origin.x) * ray.dirRecip.x)
    else w0
  let w2 := if ray.dir.y ≠ 0 then
      tighten w1 ((s.min.y - ray.origin.y) * ray.dirRecip.y)
        ((s.max.y - ray.origin.y) * ray.dirRecip.y)
    else w1
  let w3 := if ray.dir.z ≠ 0 then
      tighten w2 ((s.min.z - ray.origin.z) * ray.dirRecip.z)
        ((s.max.z - ray.origin.z) * ray.dirRecip.z)
    else w2
  finishSlab w3 ray

/-- Well-formedness: `min ≤ max` on every axis. -/
def wf (s : AABBox) : Prop :=
  s.min.x ≤ s.max.x ∧ s.min.y ≤ s.max.y ∧ s.min.z ≤ s.max.z

instance (s : AABBox) : Decidable s.wf := by unfold wf; infer_instance

/-- `a` is contained in `b`, axis-wise. -/
def subset (a b : AABBox) : Prop :=
  b.min.x ≤ a.min.x ∧ b.min.y ≤ a.min.y ∧ b.min.z ≤ a.min.z ∧
  a.max.x ≤ b.max.x ∧ a.max.y ≤ b.max.y ∧ a.max.z ≤ b.max.z

instance (a b : AABBox) : Decidable (subset a b) := by unfold subset; infer_instance

end AABBox

/-- A scene object behind the `dyn Intersect` trait object: its two
capabilities are `intersect` and `bounds` (`geometry.rs`). -/
structure Obj where
  intersect : Ray → Option Ray
  bounds : AABBox

def minByFirstStep {α β : Type*} [LinearOrder β] (d : α → β) (acc : Option α) (x : α) :
    Option α :=
  match acc with
  | none => some x
  | some a => if d x < d a then some x else some a

/-- First-of-equals minimum by a key, as Rust's `Iterator::min_by` with
a total comparator (`f64::total_cmp`, or `partial_cmp(..).unwrap_or`):
the running element is kept unless the comparator says it is strictly
greater than the newcomer. -/
def minByFirst {α β : Type*} [LinearOrder β] (d : α → β) (l : List α) : Option α :=
  l.foldl (minByFirstStep d) none

def minByOctStep {α : Type*} (d : α → ℚ) (acc : Option α) (x : α) : Option α :=
  match acc with
  | none => some x
  | some a => if d a < d x then some a else some x

/-- `Iterator::min_by` with the octree's comparator, which returns
`Greater` whenever `dist_a < dist_b` fails — so on ties the newcomer
replaces the running element (last-of-equals). -/
def minByOct {α : Type*} (d : α → ℚ) (l : List α) : Option α :=
  l.foldl (minByOctStep d) none

/-! ## K-d tree (`space_partition/kdtree.rs`) -/

def MIN_OBJECTS_IN_LEAF : Nat := 32

inductive Node where
  | branch : AABBox → Node → Node → Node
  | leaf : AABBox → List Nat → Node
deriving Repr

inductive BuildError where
  | fuelOut           -- modelling artefact: recursion budget exhausted
  | indexOutOfBounds  -- models a Rust index-out-of-bounds panic
deriving DecidableEq, Repr

def Node.bounds : Node → AABBox
  | branch b _ _ => b
  | leaf b _ => b

/-- `all_objects[i]` where a bad index is a panic. -/
def getObj (objs : List Obj) (i : Nat) : Except BuildError Obj :=
  match objs[i]? with
  | some o => .ok o
  | none => .error .indexOutOfBounds

/-- `all_objects[i].bounds()` for the build's median/partition section.
By the time these accesses run the bounding-box fold has already
dereferenced every index, so the default is unreachable. -/
def boundsAt (objs : List Obj) (i : Nat) : AABBox :=
  match objs[i]? with
  | some o => o.bounds
  | none => default

/-- `object_idxs[0]`: the first index, a panic on an empty slice. -/
def headIdx (idxs : List Nat) : Except BuildError Nat :=
  match idxs.head? with
  | some i => .ok i
  | none => .error .indexOutOfBounds

/-- The build's bounding-box fold over every member index. -/
def kdBBox (objs : List Obj) (idxs : List Nat) (b0 : AABBox) : Except BuildError AABBox :=
  idxs.foldlM (fun b i => (getObj objs i).map (fun o => b.merge o.bounds)) b0

/-- The split value: the median of the combined multiset of the
members' min- and max-coordinates along the axis
(`select_nth_unstable_by(mid, f64::total_cmp)` places the `mid`-th
order statistic at position `mid`). -/
def kdMedian (objs : List Obj) (idxs : List Nat) (axis : Nat) : ℚ :=
  let vals := idxs.map (fun i => (boundsAt objs i).min.get axis)
    ++ idxs.map (fun i => (boundsAt objs i).max.get axis)
  (vals.mergeSort (fun a b => a ≤ b)).getD (vals.length / 2) 0

/-- Left partition: members whose min-coordinate is ≤ the median. -/
def kdLeft (objs : List Obj) (idxs : List Nat) (axis : Nat) : List Nat :=
  idxs.filter (fun i => (boundsAt objs i).min.get axis ≤ kdMedian objs idxs axis)

/-- Right partition: members whose max-coordinate is ≥ the median. -/
def kdRight (objs : List Obj) (idxs : List Nat) (axis : Nat) : List Nat :=
  idxs.filter (fun i => kdMedian objs idxs axis ≤ (boundsAt objs i).max.get axis)

/-- `build_node` (`kdtree.rs`), with an explicit recursion budget: the
Rust function recurses with no decreasing measure, so the embedding
returns `.error .fuelOut` when the budget runs out and `.error
.indexOutOfBounds` where the source panics (`object_idxs[0]` on an
empty slice, or a bad object index). -/
def buildNode (objs : List Obj) : Nat → List Nat → Nat → Except BuildError Node
  | 0, _, _ => .error .fuelOut
  | fuel + 1, idxs, axis => do
    let i0 ← headIdx idxs
    let first ← getObj objs i0
    let bbox ← kdBBox objs idxs first.bounds
    if idxs.length < MIN_OBJECTS_IN_LEAF then
      return Node.leaf bbox idxs
    else
      let left ← buildNode objs fuel (kdLeft objs idxs axis) ((axis + 1) % 3)
      let right ← buildNode objs fuel (kdRight objs idxs axis) ((axis + 1) % 3)
      return Node.branch bbox left right

structure KdTree where
  root : Node
  objects : List Obj

/-- `KdTree::from_objects`. -/
def kdFromObjects (objs : List Obj) (fuel : Nat) : Except BuildError KdTree := do
  let root ← buildNode objs fuel (List.range objs.length) 0
  return ⟨root, objs⟩

/-- `Node::intersect` (`kdtree.rs`).  The branch case compares the left
hit's squared distance against itself, exactly as the source does.  An
out-of-range leaf index (a panic in Rust, never exercised by any
theorem below) contributes no hit. -/
def Node.intersect (n : Node) (ray : Ray) (axis : Nat) (objs : List Obj) : Option Ray :=
  match AABBox.intersectRay n.bounds ray with
  | none => none
  | some _ =>
    match n with
    | branch _ left right =>
      let leftIntersect := left.intersect ray ((axis + 1) % 3) objs
      let rightIntersect := right.intersect ray ((axis + 1) % 3) objs
      match leftIntersect, rightIntersect with
      | some l, some r =>
        some (if ray.origin.distanceSquared l.origin
                < ray.origin.distanceSquared l.origin then l else r)
      | some l, none => some l
      | none, some r => some r
      | none, none => none
    | leaf _ idxList =>
      minByFirst (fun h => ray.origin.distanceSquared h.origin)
        (idxList.filterMap (fun i => (objs[i]?).bind (fun o => o.intersect ray)))

/-- `<KdTree as Intersect>::intersect`. -/
def KdTree.intersect (t : KdTree) (ray : Ray) : Option Ray :=
  t.root.intersect ray 0 t.objects

def Node.leafIndices : Node → List Nat
  | leaf _ idxs => idxs
  | branch _ l r => l.leafIndices ++ r.leafIndices

/-! ## Octree (`space_partition/octree.rs`) -/

inductive Octant where
  | mk : AABBox → List (Option Octant) → List Obj → Octant

def Octant.bbox : Octant → AABBox
  | mk b _ _ => b

/-- `Octant::new`, with an explicit recursion budget (the recursion has
no decreasing measure when `cur_depth` starts above `max_depth`). -/
def octantNew (objs : List Obj) (maxDepth maxObjectsInLeaf : Nat) :
    Nat → AABBox → List Obj → Nat → Except BuildError Octant
  | 0, _, _, _ => .error .fuelOut
  | fuel + 1, bbox, objects, curDepth =>
    if curDepth = maxDepth ∨ objects.length ≤ maxObjectsInLeaf then
      .ok (Octant.mk bbox (List.replicate 8 none) objects)
    else do
      let bboxes := bbox.octants
      let objectsInChild := bboxes.map
        (fun bx => objects.filter (fun o => AABBox.intersectOther bx o.bounds))
      let children ← (bboxes.zip objectsInChild).mapM (fun p =>
        if p.2.isEmpty then pure none
        else (octantNew objs maxDepth maxObjectsInLeaf fuel p.1 p.2 (curDepth + 1)).map some)
      return Octant.mk bbox children []

structure Octree where
  root : Option Octant

/-- `Octree::new`. -/
def octreeNew (objects : List Obj) (maxDepth maxObjectsInLeaf : Nat) (bbox : AABBox)
    (fuel : Nat) : Except BuildError Octree := do
  let root ← octantNew objects maxDepth maxObjectsInLeaf fuel bbox objects 1
  return ⟨some root⟩

/-- `<Octant as Intersect>::intersect` (`octree.rs`). -/
def Octant.intersect (ray : Ray) : Octant → Option Ray
  | Octant.mk bbox children objects =>
    match AABBox.intersectRay bbox ray with
    | none => none
    | some _ =>
      let childIntersects := children.attach.filterMap (fun c =>
        match h : c.1 with
        | some child => Octant.intersect ray child
        | none => none)
      let objectIntersects := objects.filterMap (fun o => o.intersect ray)
      minByOct (fun h => ray.origin.distanceSquared h.origin)
        (childIntersects ++ objectIntersects)
  decreasing_by
    have h1 := List.sizeOf_lt_of_mem c.2
    rw [h] at h1
    simp only [Option.some.sizeOf_spec] at h1
    simp only [Octant.mk.sizeOf_spec]
    omega

/-- `<Octree as Intersect>::intersect`: `unwrap` on the always-`Some`
root; the `None` case (a panic in Rust) is modelled as no hit and is
unreachable from `octreeNew`. -/
def Octree.intersect (t : Octree) (ray : Ray) : Option Ray :=
  match t.root with
  | some oct => Octant.intersect ray oct
  | none => none

/-- Specification-side definition for the differential claim (spec §8):
the nearest hit obtained by brute-force testing every primitive in the
set directly against the ray. -/
def bruteForce (objs : List Obj) (ray : Ray) : Option Ray :=
  minByFirst (fun h => ray.origin.distanceSquared h.origin)
    (objs.filterMap (fun o => o.intersect ray))

/-! ## Real-valued geometry, for the code that takes square roots
(`sphere.rs`, `triangle.rs`, `tracer.rs`). -/

structure Vec3R where
  x : ℝ
  y : ℝ
  z : ℝ

namespace Vec3R

def add (a b : Vec3R) : Vec3R := ⟨a.x + b.x, a.y + b.y, a.z + b.z⟩

def sub (a b : Vec3R) : Vec3R := ⟨a.x - b.x, a.y - b.y, a.z - b.z⟩

def neg (a : Vec3R) : Vec3R := ⟨-a.x, -a.y, -a.z⟩

def smul (q : ℝ) (a : Vec3R) : Vec3R := ⟨q * a.x, q * a.y, q * a.z⟩

def dot (a b : Vec3R) : ℝ := a.x * b.x + a.y * b.y + a.z * b.z

def cross (a b : Vec3R) : Vec3R :=
  ⟨a.y * b.z - a.z * b.y, a.z * b.x - a.x * b.z, a.x * b.y - a.y * b.x⟩

def lengthSquared (a : Vec3R) : ℝ := a.dot a

def distanceSquared (a b : Vec3R) : ℝ := (sub a b).lengthSquared

noncomputable def length (a : Vec3R) : ℝ := Real.sqrt a.lengthSquared

/-- `glam::DVec3::normalize`: divide by the length.  Division by a zero
length (NaN components in `f64`) is the junk value `x / 0 = 0` here; no
theorem relies on the zero-length case. -/
noncomputable def normalize (a : Vec3R) : Vec3R :=
  ⟨a.x / a.length, a.y / a.length, a.z / a.length⟩

noncomputable def recip (a : Vec3R) : Vec3R := ⟨1 / a.x, 1 / a.y, 1 / a.z⟩

end Vec3R

structure RayR where
  origin : Vec3R
  dir : Vec3R
  dirRecip : Vec3R

/-- `Ray::new` (`geometry.rs`): normalises the direction and caches its
reciprocal. -/
noncomputable def RayR.new (origin dir : Vec3R) : RayR :=
  let d := dir.normalize
  ⟨origin, d, d.recip⟩

/-- `Ray::reflect` (`geometry.rs`). -/
noncomputable def RayR.reflect (self : RayR) (normal : RayR) : RayR :=
  let dir := (Vec3R.add
    (Vec3R.smul (2 * normal.dir.dot self.dir.neg) normal.dir) self.dir).normalize
  ⟨normal.origin, dir, dir.recip⟩

/-! ## Sphere (`object/sphere.rs`) -/

structure Sphere where
  center : Vec3R
  radius : ℝ

/-- The inner `delta` function of `Sphere::intersect`. -/
noncomputable def Sphere.delta (s : Sphere) (ray : RayR) : ℝ :=
  (2 * (ray.dir.dot (ray.origin.sub s.center))) ^ 2
    - 4 * ((ray.origin.sub s.center).lengthSquared - s.radius * s.radius)

/-- The hit ray `Sphere::intersect` builds once the root `d` is chosen:
`intersect_point = origin + d*dir`, normal through the centre, origin
nudged by `0.001 * normal`, direction jittered then normalised. -/
noncomputable def sphereHitAt (s : Sphere) (ray : RayR) (rand : Vec3R) (d : ℝ) : RayR :=
  let intersectPoint := ray.origin.add (Vec3R.smul d ray.dir)
  let normal := (intersectPoint.sub s.center).normalize
  RayR.new (intersectPoint.add (Vec3R.smul 0.001 normal)) ((normal.add rand).normalize)

/-- `Sphere::intersect` (`sphere.rs`).  `rand` models the sampled
thread-local RNG jitter vector (already offset and scaled); every
theorem quantifies over it. -/
noncomputable def Sphere.intersect (s : Sphere) (ray : RayR) (rand : Vec3R) : Option RayR :=
  let delta := s.delta ray
  if delta ≤ 0 then none
  else
    let p := -2 * (ray.dir.dot (ray.origin.sub s.center))
    let q := Real.sqrt delta
    let d1 := (p + q) / 2
    let d2 := (p - q) / 2
    if d1 < 0 ∧ d2 < 0 then none
    else
      let d := if 0 < d1 ∧ d2 < 0 then d1
        else if d1 < 0 ∧ 0 < d2 then d2
        else Min.min d1 d2
      some (sphereHitAt s ray rand d)

/-! ## Triangle (`object/triangle.rs`) -/

structure Triangle where
  a : Vec3R
  b : Vec3R
  c : Vec3R
  normal : Vec3R

/-- `Triangle::new`: precomputes the face normal by the right-hand rule. -/
noncomputable def Triangle.new (a b c : Vec3R) : Triangle :=
  ⟨a, b, c, ((b.sub a).cross (c.sub a)).normalize⟩

/-- `Triangle::intersect` (`triangle.rs`).  The source's `d =
n.dot(self.a)` is only logged and is omitted; `rand` models the RNG
jitter (already scaled by 1.2). -/
noncomputable def Triangle.intersect (t : Triangle) (ray : RayR) (rand : Vec3R) :
    Option RayR :=
  let n := t.normal
  if 0 < n.dot ray.dir then none
  else
    let tPar := ((t.a.sub ray.origin).dot n) / (n.dot ray.dir)
    if tPar ≤ 0 then none
    else
      let p := ray.origin.add (Vec3R.smul tPar ray.dir)
      let ab := t.b.sub t.a
      let bc := t.c.sub t.b
      let ca := t.a.sub t.c
      let leftOfAB := 0 ≤ n.dot (ab.cross (p.sub t.a))
      let leftOfBC := 0 ≤ n.dot (bc.cross (p.sub t.b))
      let leftOfCA := 0 ≤ n.dot (ca.cross (p.sub t.c))
      if leftOfAB ∧ leftOfBC ∧ leftOfCA then
        some (RayR.new (p.add (Vec3R.smul 0.0001 n)) ((n.add rand).normalize))
      else none

/-! ## Recursive tracer (`tracer.rs`) -/

/-- The scene object set behind `&dyn Intersect`, real-valued. -/
structure ObjR where
  intersect : RayR → Option RayR

/-- `trace_ray` (`tracer.rs`): collect the scene hit (tagged `false`)
and every light hit (tagged `true`), pick the entry nearest the ray
origin by squared distance, return 1 for a light, recurse with decay
0.98 for an object while bounces remain, otherwise 0. -/
noncomputable def traceRay (objects : ObjR) (lights : List Sphere) (rand : Vec3R) :
    RayR → Nat → ℝ
  | ray, remainingSteps =>
    let vec : List (ℝ × RayR × Bool) :=
      (match objects.intersect ray with
        | some reflectionNormal =>
          [(ray.origin.distanceSquared reflectionNormal.origin, reflectionNormal, false)]
        | none => []) ++
      lights.filterMap (fun light =>
        (light.intersect ray rand).map
          (fun normal => ((normal.origin.sub ray.origin).lengthSquared, normal, true)))
    let nearest := minByFirst (fun e => e.1) vec
    match nearest with
    | some (_, _, true) => 1
    | some (_, normal, false) =>
      if h : 1 < remainingSteps then
        0.98 * traceRay objects lights rand (ray.reflect normal) (remainingSteps - 1)
      else 0
    | none => 0
  termination_by _ray steps => steps

/-! ## Concrete instances used by counterexamples and witnesses -/

/-- A triangle with its stored unit normal `(0,0,1)`. -/
noncomputable def triW : Triangle := ⟨⟨0, 0, 0⟩, ⟨1, 0, 0⟩, ⟨0, 1, 0⟩, ⟨0, 0, 1⟩⟩

/-- A ray travelling along `+z`, into `triW`'s back side. -/
noncomputable def rayTriW : RayR := ⟨⟨1/4, 1/4, -1⟩, ⟨0, 0, 1⟩, ⟨0, 0, 1⟩⟩

/-- A ray along `+x` from the origin. -/
def rayA : Ray := ⟨⟨0, 0, 0⟩, ⟨1, 0, 0⟩, ⟨1, 0, 0⟩⟩

def hitNearA : Ray := ⟨⟨1, 0, 0⟩, ⟨1, 0, 0⟩, ⟨1, 0, 0⟩⟩

def hitFarA : Ray := ⟨⟨4, 0, 0⟩, ⟨1, 0, 0⟩, ⟨1, 0, 0⟩⟩

/-- Two objects: one hitting at distance 1, one at distance 4. -/
def objsA : List Obj :=
  [⟨fun _ => some hitNearA, ⟨⟨1, -1, -1⟩, ⟨2, 1, 1⟩⟩⟩,
   ⟨fun _ => some hitFarA, ⟨⟨3, -1, -1⟩, ⟨5, 1, 1⟩⟩⟩]

def leftA : Node := Node.leaf ⟨⟨1, -1, -1⟩, ⟨2, 1, 1⟩⟩ [0]

def rightA : Node := Node.leaf ⟨⟨3, -1, -1⟩, ⟨5, 1, 1⟩⟩ [1]

def branchA : Node := Node.branch ⟨⟨1, -1, -1⟩, ⟨5, 1, 1⟩⟩ leftA rightA

/-- A ray along `+y` from the origin. -/
def rayB : Ray := ⟨⟨0, 0, 0⟩, ⟨0, 1, 0⟩, ⟨0, 1, 0⟩⟩

def hitNearB : Ray := ⟨⟨0, 1, 0⟩, ⟨0, 1, 0⟩, ⟨0, 1, 0⟩⟩

def hitFarB : Ray := ⟨⟨0, 3, 0⟩, ⟨0, 1, 0⟩, ⟨0, 1, 0⟩⟩

def objsB : List Obj :=
  [⟨fun _ => some hitNearB, ⟨⟨-1, 1, -1⟩, ⟨1, 2, 1⟩⟩⟩,
   ⟨fun _ => some hitFarB, ⟨⟨-1, 2, -1⟩, ⟨1, 4, 1⟩⟩⟩]

def leftB : Node := Node.leaf ⟨⟨-1, 1, -1⟩, ⟨1, 2, 1⟩⟩ [0]

def rightB : Node := Node.leaf ⟨⟨-1, 2, -1⟩, ⟨1, 4, 1⟩⟩ [1]

def branchB : Node := Node.branch ⟨⟨-1, 1, -1⟩, ⟨1, 4, 1⟩⟩ leftB rightB

/-- A primitive whose bounds are the unit cube. -/
def unitObj : Obj := ⟨fun _ => none, ⟨⟨0, 0, 0⟩, ⟨1, 1, 1⟩⟩⟩

/-- Unit sphere at the origin. -/
noncomputable def sphereC6 : Sphere := ⟨⟨0, 0, 0⟩, 1⟩

/-- A ray starting on `sphereC6`'s surface pointing away from it. -/
noncomputable def rayC6 : RayR := ⟨⟨1, 0, 0⟩, ⟨1, 0, 0⟩, ⟨1, 0, 0⟩⟩

/-- Unit sphere three units ahead on `z`. -/
noncomputable def sphereZ3 : Sphere := ⟨⟨0, 0, 3⟩, 1⟩

/-- A ray from the origin along `+z`. -/
noncomputable def rayZ : RayR := ⟨⟨0, 0, 0⟩, ⟨0, 0, 1⟩, ⟨0, 0, 1⟩⟩

/-- An object set whose `intersect` never reports a hit. -/
noncomputable def objNoneR : ObjR := ⟨fun _ => none⟩

/-- A single primitive that is itself an `AABBox` (the source implements
`Intersect` for `AABBox`): the unit cube. -/
def boxObjW : Obj :=
  ⟨fun r => AABBox.intersectRay ⟨⟨0, 0, 0⟩, ⟨1, 1, 1⟩⟩ r, ⟨⟨0, 0, 0⟩, ⟨1, 1, 1⟩⟩⟩

/-- A ray entering the unit cube along `+x`. -/
def rayW1 : Ray := ⟨⟨-1, 1/2, 1/2⟩, ⟨1, 0, 0⟩, ⟨1, 0, 0⟩⟩

/-- An enclosing box for the octree. -/
def bigBoxW : AABBox := ⟨⟨-2, -2, -2⟩, ⟨2, 2, 2⟩⟩

/-- 32 primitives with identical (well-formed) bounds: the kd-tree
build's left partition always equals the full set on this input. -/
def objs32 : List Obj := List.replicate 32 unitObj

/-! ## Theorems -/

theorem ok_bind {ε α β : Type u} (a : α) (f : α → Except ε β) :
    (Except.ok a >>= f : Except ε β) = f a := rfl

theorem error_bind {ε α β : Type u} (e : ε) (f : α → Except ε β) :
    (Except.error e >>= f : Except ε β) = Except.error e := rfl

/-- The decision (hit or miss) of `finishSlab` ignores the returned
payload. -/
theorem finishSlab_isSome (w : Option ℚ × Option ℚ) (r r' : Ray) :
    (AABBox.finishSlab w r).isSome = (AABBox.finishSlab w r').isSome := by
  rcases w with ⟨_ | lo, _ | hi⟩ <;> simp [AABBox.finishSlab] <;> split_ifs <;> rfl

theorem minByFirst_go_mem {α β : Type*} [LinearOrder β] (d : α → β) :
    ∀ (l : List α) (a : α),
      ∃ y, l.foldl (minByFirstStep d) (some a) = some y ∧ (y = a ∨ y ∈ l) := by
  intro l
  induction l with
  | nil => exact fun a => ⟨a, rfl, Or.inl rfl⟩
  | cons x xs ih =>
    intro a
    have hstep : minByFirstStep d (some a) x = some (if d x < d a then x else a) := by
      show (if d x < d a then some x else some a) = some (if d x < d a then x else a)
      split_ifs <;> rfl
    rcases ih (if d x < d a then x else a) with ⟨y, hy, hmem⟩
    refine ⟨y, ?_, ?_⟩
    · rw [List.foldl_cons, hstep]; exact hy
    · rcases hmem with h | h
      · split_ifs at h
        · exact Or.inr (h ▸ List.mem_cons_self x xs)
        · exact Or.inl h
      · exact Or.inr (List.mem_cons_of_mem _ h)

theorem minByFirst_mem {α β : Type*} [LinearOrder β] (d : α → β) (l : List α) (x : α)
    (h : minByFirst d l = some x) : x ∈ l := by
  cases l with
  | nil => simp [minByFirst] at h
  | cons a as =>
    rcases minByFirst_go_mem d as a with ⟨y, hy, hmem⟩
    have : minByFirst d (a :: as) = some y := by
      unfold minByFirst
      rw [List.foldl_cons]
      exact hy
    rw [this] at h
    cases h
    rcases hmem with h | h
    · exact h ▸ List.mem_cons_self a as
    · exact List.mem_cons_of_mem _ h

theorem minByFirst_ne_none {α β : Type*} [LinearOrder β] (d : α → β) (l : List α)
    (h : l ≠ []) : minByFirst d l ≠ none := by
  cases l with
  | nil => exact absurd rfl h
  | cons a as =>
    rcases minByFirst_go_mem d as a with ⟨y, hy, _⟩
    unfold minByFirst
    rw [List.foldl_cons]
    show List.foldl (minByFirstStep d) (minByFirstStep d none a) as ≠ none
    rw [show minByFirstStep d none a = some a from rfl, hy]
    exact Option.some_ne_none y

/-- C8: for every triangle and every ray pointing into the same
hemisphere as the stored face normal (`normal · dir > 0`),
`Triangle::intersect` returns `None` (back-face culling). -/
theorem triangle_backface_none (t : Triangle) (ray : RayR) (rand : Vec3R)
    (h : 0 < t.normal.dot ray.dir) : t.intersect ray rand = none := by
  unfold Triangle.intersect
  rw [if_pos h]

/-- Witness for `triangle_backface_none` at a concrete triangle and ray. -/
theorem triangle_backface_none_witness :
    0 < triW.normal.dot rayTriW.dir ∧ triW.intersect rayTriW ⟨0, 0, 0⟩ = none := by
  have h : 0 < triW.normal.dot rayTriW.dir := by
    norm_num [triW, rayTriW, Vec3R.dot]
  exact ⟨h, triangle_backface_none _ _ _ h⟩

/-- C9: an axis whose direction component is zero is skipped by the
slab test: whether a hit is reported is unchanged under arbitrary
changes to the box's extent and the ray's origin coordinate on that
axis (the `Some` payload is the input ray itself, so only the hit/miss
decision is compared). -/
theorem slab_skips_zero_axis (s : AABBox) (ray : Ray) (a : Nat) (ha : a < 3)
    (h0 : ray.dir.get a = 0) (v w u : ℚ) :
    (AABBox.intersectRay ⟨s.min.set a v, s.max.set a w⟩
        ⟨ray.origin.set a u, ray.dir, ray.dirRecip⟩).isSome
      = (AABBox.intersectRay s ray).isSome := by
  interval_cases a <;>
  · simp only [Vec3.get] at h0
    simp only [AABBox.intersectRay, Vec3.set, h0]
    simp only [ne_eq, not_true_eq_false, if_false, reduceIte]
    exact finishSlab_isSome _ _ _

/-- Witness for `slab_skips_zero_axis`: a ray parallel to the x axis,
with origin far outside the box on x; the test ignores x entirely (and
both sides do report a hit). -/
theorem slab_skips_zero_axis_witness :
    Vec3.get ⟨0, 0, 1⟩ 0 = 0 ∧
    ((AABBox.intersectRay ⟨Vec3.set ⟨0, 0, 0⟩ 0 50, Vec3.set ⟨1, 1, 1⟩ 0 60⟩
        ⟨Vec3.set ⟨5, 1/2, -1⟩ 0 99, ⟨0, 0, 1⟩, ⟨0, 0, 1⟩⟩).isSome
      = (AABBox.intersectRay ⟨⟨0, 0, 0⟩, ⟨1, 1, 1⟩⟩
          ⟨⟨5, 1/2, -1⟩, ⟨0, 0, 1⟩, ⟨0, 0, 1⟩⟩).isSome) ∧
    (AABBox.intersectRay ⟨⟨0, 0, 0⟩, ⟨1, 1, 1⟩⟩
      ⟨⟨5, 1/2, -1⟩, ⟨0, 0, 1⟩, ⟨0, 0, 1⟩⟩).isSome = true :=
  ⟨rfl, slab_skips_zero_axis ⟨⟨0, 0, 0⟩, ⟨1, 1, 1⟩⟩ ⟨⟨5, 1/2, -1⟩, ⟨0, 0, 1⟩, ⟨0, 0, 1⟩⟩
    0 (by decide) rfl 50 60 99,
    by norm_num [AABBox.intersectRay, AABBox.tighten, AABBox.finishSlab]⟩

theorem leftA_eval : Node.intersect leftA rayA 1 objsA = some hitNearA := by
  simp [leftA, rayA, objsA, Node.intersect, Node.bounds, AABBox.intersectRay,
    AABBox.tighten, AABBox.finishSlab, minByFirst, minByFirstStep]

theorem rightA_eval : Node.intersect rightA rayA 1 objsA = some hitFarA := by
  simp [rightA, rayA, objsA, Node.intersect, Node.bounds, AABBox.intersectRay,
    AABBox.tighten, AABBox.finishSlab, minByFirst, minByFirstStep]

/-- C2 counterexample: at `branchA` both children hit, the left hit is
strictly closer, yet `Node::intersect` returns the right (farther)
hit — the claim "returns whichever of the two hits is closer" fails. -/
theorem kd_branch_nearest_cex :
    Node.intersect leftA rayA 1 objsA = some hitNearA ∧
    Node.intersect rightA rayA 1 objsA = some hitFarA ∧
    rayA.origin.distanceSquared hitNearA.origin
      < rayA.origin.distanceSquared hitFarA.origin ∧
    Node.intersect branchA rayA 0 objsA = some hitFarA ∧
    hitFarA ≠ hitNearA := by
  refine ⟨leftA_eval, rightA_eval, ?_, ?_, ?_⟩
  · norm_num [rayA, hitNearA, hitFarA, Vec3.distanceSquared, Vec3.sub, Vec3.lengthSquared,
      Vec3.dot]
  · rw [show branchA = Node.branch ⟨⟨1, -1, -1⟩, ⟨5, 1, 1⟩⟩ leftA rightA from rfl,
      Node.intersect]
    simp only [show (0 + 1) % 3 = 1 from rfl, leftA_eval, rightA_eval]
    norm_num [Node.bounds, rayA, AABBox.intersectRay, AABBox.tighten, AABBox.finishSlab]
  · simp [hitFarA, hitNearA]

/-- C2 (amended): at a Branch whose box the ray hits, when both child
calls return hits the right child's hit is returned (the degenerate
self-comparison always picks the right branch); when exactly one child
returns a hit, that hit is returned. -/
theorem kd_branch_result (bb : AABBox) (l r : Node) (ray : Ray) (axis : Nat)
    (objs : List Obj) (w : Ray) (hbb : AABBox.intersectRay bb ray = some w) :
    (∀ hl hr, l.intersect ray ((axis + 1) % 3) objs = some hl →
        r.intersect ray ((axis + 1) % 3) objs = some hr →
        (Node.branch bb l r).intersect ray axis objs = some hr) ∧
    (∀ hl, l.intersect ray ((axis + 1) % 3) objs = some hl →
        r.intersect ray ((axis + 1) % 3) objs = none →
        (Node.branch bb l r).intersect ray axis objs = some hl) ∧
    (∀ hr, l.intersect ray ((axis + 1) % 3) objs = none →
        r.intersect ray ((axis + 1) % 3) objs = some hr →
        (Node.branch bb l r).intersect ray axis objs = some hr) := by
  refine ⟨fun hl hr h1 h2 => ?_, fun hl h1 h2 => ?_, fun hr h1 h2 => ?_⟩ <;>
  · rw [Node.intersect]
    simp [Node.bounds, hbb, h1, h2]

/-- Witness for `kd_branch_result` at `branchA` (both children hit). -/
theorem kd_branch_result_witness :
    AABBox.intersectRay ⟨⟨1, -1, -1⟩, ⟨5, 1, 1⟩⟩ rayA = some rayA ∧
    Node.intersect branchA rayA 0 objsA = some hitFarA := by
  have hbb : AABBox.intersectRay ⟨⟨1, -1, -1⟩, ⟨5, 1, 1⟩⟩ rayA = some rayA := by
    norm_num [rayA, AABBox.intersectRay, AABBox.tighten, AABBox.finishSlab]
  refine ⟨hbb, ?_⟩
  rw [show branchA = Node.branch ⟨⟨1, -1, -1⟩, ⟨5, 1, 1⟩⟩ leftA rightA from rfl]
  exact (kd_branch_result _ _ _ _ 0 _ _ hbb).1 hitNearA hitFarA leftA_eval rightA_eval

theorem leftB_eval : Node.intersect leftB rayB 1 objsB = some hitNearB := by
  simp [leftB, rayB, objsB, Node.intersect, Node.bounds, AABBox.intersectRay,
    AABBox.tighten, AABBox.finishSlab, minByFirst, minByFirstStep]

theorem rightB_eval : Node.intersect rightB rayB 1 objsB = some hitFarB := by
  simp [rightB, rayB, objsB, Node.intersect, Node.bounds, AABBox.intersectRay,
    AABBox.tighten, AABBox.finishSlab, minByFirst, minByFirstStep]

/-- C3 counterexample: the self-comparison makes the *right* subtree's
hit the returned one, not the left as claimed: at `branchB` both
children hit and the result is the right child's hit. -/
theorem kd_branch_self_compare_cex :
    Node.intersect leftB rayB 1 objsB = some hitNearB ∧
    Node.intersect rightB rayB 1 objsB = some hitFarB ∧
    Node.intersect branchB rayB 0 objsB = some hitFarB ∧
    some hitFarB ≠ some hitNearB := by
  refine ⟨leftB_eval, rightB_eval, ?_, ?_⟩
  · rw [show branchB = Node.branch ⟨⟨-1, 1, -1⟩, ⟨1, 4, 1⟩⟩ leftB rightB from rfl,
      Node.intersect]
    simp only [show (0 + 1) % 3 = 1 from rfl, leftB_eval, rightB_eval]
    norm_num [Node.bounds, rayB, AABBox.intersectRay, AABBox.tighten, AABBox.finishSlab]
  · simp [hitFarB, hitNearB]

/-- C3 (amended): whenever both children of a Branch (whose box the ray
hits) return hits, the self-comparison `d(left) < d(left)` is false, so
the right subtree's hit is returned, for every ray and pair of child
hits. -/
theorem kd_branch_self_compare_right (bb : AABBox) (l r : Node) (ray : Ray)
    (axis : Nat) (objs : List Obj) (w hl hr : Ray)
    (hbb : AABBox.intersectRay bb ray = some w)
    (h1 : l.intersect ray ((axis + 1) % 3) objs = some hl)
    (h2 : r.intersect ray ((axis + 1) % 3) objs = some hr) :
    (Node.branch bb l r).intersect ray axis objs = some hr ∧
    ¬(ray.origin.distanceSquared hl.origin < ray.origin.distanceSquared hl.origin) := by
  constructor
  · rw [Node.intersect]
    simp [Node.bounds, hbb, h1, h2]
  · exact lt_irrefl _

/-- Witness for `kd_branch_self_compare_right` at `branchB`. -/
theorem kd_branch_self_compare_right_witness :
    AABBox.intersectRay ⟨⟨-1, 1, -1⟩, ⟨1, 4, 1⟩⟩ rayB = some rayB ∧
    Node.intersect leftB rayB 1 objsB = some hitNearB ∧
    Node.intersect branchB rayB 0 objsB = some hitFarB := by
  have hbb : AABBox.intersectRay ⟨⟨-1, 1, -1⟩, ⟨1, 4, 1⟩⟩ rayB = some rayB := by
    norm_num [rayB, AABBox.intersectRay, AABBox.tighten, AABBox.finishSlab]
  refine ⟨hbb, leftB_eval, ?_⟩
  rw [show branchB = Node.branch ⟨⟨-1, 1, -1⟩, ⟨1, 4, 1⟩⟩ leftB rightB from rfl]
  exact (kd_branch_self_compare_right _ _ _ _ 0 _ _ _ _ hbb leftB_eval rightB_eval).1

theorem get000 (i : Nat) : Vec3.get ⟨0, 0, 0⟩ i = 0 := by
  rcases i with _ | _ | i <;> rfl

theorem get111 (i : Nat) : Vec3.get ⟨1, 1, 1⟩ i = 1 := by
  rcases i with _ | _ | i <;> rfl

theorem boundsAt_objs32 (i : Nat) (h : i < 32) :
    boundsAt objs32 i = ⟨⟨0, 0, 0⟩, ⟨1, 1, 1⟩⟩ := by
  unfold boundsAt objs32
  rw [List.getElem?_replicate, if_pos h]
  rfl

/-- On `objs32`, the split median is an element of `{0, 1}`, hence
non-negative. -/
theorem kdMedian_objs32_nonneg (axis : Nat) :
    0 ≤ kdMedian objs32 (List.range 32) axis := by
  have hmins : (List.range 32).map (fun i => (boundsAt objs32 i).min.get axis)
      = List.replicate 32 0 := by
    refine List.eq_replicate.mpr ⟨by simp, fun b hb => ?_⟩
    rcases List.mem_map.mp hb with ⟨i, hi, rfl⟩
    rw [boundsAt_objs32 i (List.mem_range.mp hi), get000]
  have hmaxs : (List.range 32).map (fun i => (boundsAt objs32 i).max.get axis)
      = List.replicate 32 1 := by
    refine List.eq_replicate.mpr ⟨by simp, fun b hb => ?_⟩
    rcases List.mem_map.mp hb with ⟨i, hi, rfl⟩
    rw [boundsAt_objs32 i (List.mem_range.mp hi), get111]
  unfold kdMedian
  simp only [hmins, hmaxs]
  set vals := List.replicate 32 (0 : ℚ) ++ List.replicate 32 1 with hv
  have hlen : (vals.mergeSort (fun a b => a ≤ b)).length = 64 := by
    rw [List.length_mergeSort]; simp [hv]
  have hidx : vals.length / 2 < (vals.mergeSort (fun a b => a ≤ b)).length := by
    rw [hlen]; simp [hv]
  rw [List.getD_eq_getElem _ _ hidx]
  have hmem : (vals.mergeSort (fun a b => a ≤ b))[vals.length / 2] ∈ vals :=
    (List.mergeSort_perm vals _).mem_iff.mp (List.getElem_mem _)
  rcases List.mem_append.mp hmem with h | h
  · rw [List.eq_of_mem_replicate h]
  · rw [List.eq_of_mem_replicate h]; norm_num

/-- On `objs32`, the left partition keeps every index. -/
theorem kdLeft_objs32 (axis : Nat) :
    kdLeft objs32 (List.range 32) axis = List.range 32 := by
  unfold kdLeft
  refine List.filter_eq_self.mpr (fun i hi => ?_)
  rw [boundsAt_objs32 i (List.mem_range.mp hi), get000]
  exact decide_eq_true (kdMedian_objs32_nonneg axis)

set_option maxRecDepth 4000 in
/-- On `objs32` the left partition is always the full index set, so the
recursion never makes progress: `build_node` exhausts any budget. -/
theorem buildNode_objs32_fuelOut : ∀ fuel axis : Nat,
    buildNode objs32 fuel (List.range 32) axis = Except.error BuildError.fuelOut := by
  intro fuel
  induction fuel with
  | zero => intro axis; rfl
  | succ fuel ih =>
    intro axis
    rw [buildNode,
      show headIdx (List.range 32) = Except.ok 0 from rfl, ok_bind,
      show getObj objs32 0 = Except.ok unitObj from rfl, ok_bind,
      show kdBBox objs32 (List.range 32) unitObj.bounds
        = Except.ok (⟨⟨0, 0, 0⟩, ⟨1, 1, 1⟩⟩ : AABBox) from rfl, ok_bind,
      if_neg (by decide : ¬((List.range 32).length < MIN_OBJECTS_IN_LEAF)),
      kdLeft_objs32 axis, ih ((axis + 1) % 3), error_bind]

/-- C4: the kd-tree build does *not* terminate on every well-formed
non-empty input: on 32 primitives with identical bounds the left
partition equals the full set at every step, so `from_objects` exhausts
any recursion budget without ever reaching a leaf. -/
theorem kd_from_objects_diverges_on_identical_bounds :
    ∀ fuel, kdFromObjects objs32 fuel = Except.error BuildError.fuelOut := by
  intro fuel
  unfold kdFromObjects
  rw [show objs32.length = 32 from rfl, buildNode_objs32_fuelOut fuel 0, error_bind]

theorem subset_refl (a : AABBox) : a.subset a := by
  unfold AABBox.subset; refine ⟨le_refl _, le_refl _, le_refl _, le_refl _, le_refl _, le_refl _⟩

theorem subset_trans {a b c : AABBox} (h1 : a.subset b) (h2 : b.subset c) : a.subset c := by
  unfold AABBox.subset at h1 h2 ⊢
  exact ⟨le_trans h2.1 h1.1, le_trans h2.2.1 h1.2.1, le_trans h2.2.2.1 h1.2.2.1,
    le_trans h1.2.2.2.1 h2.2.2.2.1, le_trans h1.2.2.2.2.1 h2.2.2.2.2.1,
    le_trans h1.2.2.2.2.2 h2.2.2.2.2.2⟩

theorem subset_merge_left (a b : AABBox) : a.subset (a.merge b) := by
  unfold AABBox.subset AABBox.merge
  exact ⟨min_le_left _ _, min_le_left _ _, min_le_left _ _,
    le_max_left _ _, le_max_left _ _, le_max_left _ _⟩

theorem subset_merge_right (a b : AABBox) : b.subset (a.merge b) := by
  unfold AABBox.subset AABBox.merge
  exact ⟨min_le_right _ _, min_le_right _ _, min_le_right _ _,
    le_max_right _ _, le_max_right _ _, le_max_right _ _⟩

/-- The bounding-box fold succeeds when every index is in range, and
its result contains the start box and every member's bounds. -/
theorem kdBBox_ok (objs : List Obj) :
    ∀ (idxs : List Nat), (∀ i ∈ idxs, i < objs.length) → ∀ b0 : AABBox,
      ∃ bb, kdBBox objs idxs b0 = Except.ok bb ∧ b0.subset bb ∧
        ∀ i ∈ idxs, (boundsAt objs i).subset bb := by
  intro idxs
  induction idxs with
  | nil =>
    intro _ b0
    exact ⟨b0, rfl, subset_refl b0, by simp⟩
  | cons i t ih =>
    intro hb b0
    have hi : i < objs.length := hb i (List.mem_cons_self i t)
    have hio : objs[i]? = some objs[i] := List.getElem?_eq_getElem hi
    have hg : getObj objs i = Except.ok objs[i] := by unfold getObj; rw [hio]
    have hba : boundsAt objs i = objs[i].bounds := by unfold boundsAt; rw [hio]
    rcases ih (fun k hk => hb k (List.mem_cons_of_mem i hk)) (b0.merge objs[i].bounds)
      with ⟨bb, hbb, hsub, hall⟩
    refine ⟨bb, ?_, ?_, ?_⟩
    · unfold kdBBox at hbb ⊢
      rw [List.foldlM_cons, hg]
      exact hbb
    · exact subset_trans (subset_merge_left _ _) hsub
    · intro k hk
      rcases List.mem_cons.mp hk with rfl | hk
      · rw [hba]; exact subset_trans (subset_merge_right _ _) hsub
      · exact hall k hk

theorem list_argmin {α : Type*} (f : α → ℚ) :
    ∀ (l : List α), l ≠ [] → ∃ j ∈ l, ∀ i ∈ l, f j ≤ f i := by
  intro l
  induction l with
  | nil => exact fun h => absurd rfl h
  | cons a t ih =>
    intro _
    cases t with
    | nil =>
      refine ⟨a, List.mem_singleton_self a, fun i hi => ?_⟩
      rw [List.mem_singleton.mp hi]
    | cons b t' =>
      rcases ih (List.cons_ne_nil b t') with ⟨j, hj, hle⟩
      by_cases hc : f a ≤ f j
      · refine ⟨a, List.mem_cons_self a _, fun i hi => ?_⟩
        rcases List.mem_cons.mp hi with rfl | hi
        · exact le_refl _
        · exact le_trans hc (hle i hi)
      · refine ⟨j, List.mem_cons_of_mem a hj, fun i hi => ?_⟩
        rcases List.mem_cons.mp hi with rfl | hi
        · exact (not_le.mp hc).le
        · exact hle i hi

theorem list_argmax {α : Type*} (f : α → ℚ) :
    ∀ (l : List α), l ≠ [] → ∃ j ∈ l, ∀ i ∈ l, f i ≤ f j := by
  intro l
  induction l with
  | nil => exact fun h => absurd rfl h
  | cons a t ih =>
    intro _
    cases t with
    | nil =>
      refine ⟨a, List.mem_singleton_self a, fun i hi => ?_⟩
      rw [List.mem_singleton.mp hi]
    | cons b t' =>
      rcases ih (List.cons_ne_nil b t') with ⟨j, hj, hle⟩
      by_cases hc : f j ≤ f a
      · refine ⟨a, List.mem_cons_self a _, fun i hi => ?_⟩
        rcases List.mem_cons.mp hi with rfl | hi
        · exact le_refl _
        · exact le_trans (hle i hi) hc
      · refine ⟨j, List.mem_cons_of_mem a hj, fun i hi => ?_⟩
        rcases List.mem_cons.mp hi with rfl | hi
        · exact (not_le.mp hc).le
        · exact hle i hi

theorem wf_get {b : AABBox} (h : b.wf) : ∀ i, b.min.get i ≤ b.max.get i := by
  intro i
  rcases i with _ | _ | i
  · exact h.1
  · exact h.2.1
  · exact h.2.2

theorem boundsAt_wf {objs : List Obj} (hwf : ∀ o ∈ objs, o.bounds.wf) (i : Nat) :
    (boundsAt objs i).wf := by
  unfold boundsAt
  cases ho : objs[i]? with
  | none => exact ⟨le_refl _, le_refl _, le_refl _⟩
  | some o => exact hwf o (List.getElem?_mem ho)

/-- The median is one of the member coordinates. -/
theorem kdMedian_mem (objs : List Obj) (idxs : List Nat) (axis : Nat) (h : idxs ≠ []) :
    kdMedian objs idxs axis ∈ idxs.map (fun i => (boundsAt objs i).min.get axis)
      ++ idxs.map (fun i => (boundsAt objs i).max.get axis) := by
  unfold kdMedian
  set vals := idxs.map (fun i => (boundsAt objs i).min.get axis)
    ++ idxs.map (fun i => (boundsAt objs i).max.get axis) with hv
  have hvpos : 0 < vals.length := by
    rw [hv]
    simp only [List.length_append, List.length_map]
    have := List.length_pos.mpr h
    omega
  have hidx : vals.length / 2 < (vals.mergeSort (fun a b => a ≤ b)).length := by
    rw [List.length_mergeSort]
    omega
  rw [List.getD_eq_getElem _ _ hidx]
  exact (List.mergeSort_perm vals _).mem_iff.mp (List.getElem_mem _)

/-- Both partitions are non-empty when the member set is non-empty and
the members' bounds are well-formed. -/
theorem kd_partitions_ne_nil (objs : List Obj) (idxs : List Nat) (axis : Nat)
    (h : idxs ≠ []) (hwf : ∀ i, (boundsAt objs i).wf) :
    kdLeft objs idxs axis ≠ [] ∧ kdRight objs idxs axis ≠ [] := by
  rcases list_argmin (fun i => (boundsAt objs i).min.get axis) idxs h with ⟨j0, hj0, hmin⟩
  rcases list_argmax (fun i => (boundsAt objs i).max.get axis) idxs h with ⟨k0, hk0, hmax⟩
  have hmed := kdMedian_mem objs idxs axis h
  set M := kdMedian objs idxs axis with hM
  have hlow : (boundsAt objs j0).min.get axis ≤ M := by
    rcases List.mem_append.mp hmed with hm | hm
    · rcases List.mem_map.mp hm with ⟨i, hi, hEq⟩
      rw [← hEq]; exact hmin i hi
    · rcases List.mem_map.mp hm with ⟨i, hi, hEq⟩
      rw [← hEq]; exact le_trans (hmin i hi) (wf_get (hwf i) axis)
  have hhigh : M ≤ (boundsAt objs k0).max.get axis := by
    rcases List.mem_append.mp hmed with hm | hm
    · rcases List.mem_map.mp hm with ⟨i, hi, hEq⟩
      rw [← hEq]; exact le_trans (wf_get (hwf i) axis) (hmax i hi)
    · rcases List.mem_map.mp hm with ⟨i, hi, hEq⟩
      rw [← hEq]; exact hmax i hi
  constructor
  · exact List.ne_nil_of_mem (List.mem_filter.mpr ⟨hj0, decide_eq_true hlow⟩)
  · exact List.ne_nil_of_mem (List.mem_filter.mpr ⟨hk0, decide_eq_true hhigh⟩)

/-- No index access in `build_node` is out of bounds when the index set
is non-empty, all indices are in range, and bounds are well-formed (the
build may exhaust fuel, but never reaches the panic). -/
theorem buildNode_no_oob (objs : List Obj) (hwf : ∀ o ∈ objs, o.bounds.wf) :
    ∀ fuel idxs axis, idxs ≠ [] → (∀ i ∈ idxs, i < objs.length) →
      buildNode objs fuel idxs axis ≠ Except.error BuildError.indexOutOfBounds := by
  intro fuel
  induction fuel with
  | zero =>
    intro idxs axis _ _
    simp [buildNode]
  | succ fuel ih =>
    intro idxs axis hne hb
    rcases idxs with _ | ⟨i0, t⟩
    · exact absurd rfl hne
    rw [buildNode, show headIdx (i0 :: t) = Except.ok i0 from rfl, ok_bind]
    have hi0 : i0 < objs.length := hb i0 (List.mem_cons_self i0 t)
    have hg : getObj objs i0 = Except.ok objs[i0] := by
      unfold getObj; rw [List.getElem?_eq_getElem hi0]
    rw [hg, ok_bind]
    rcases kdBBox_ok objs (i0 :: t) hb objs[i0].bounds with ⟨bb, hbb, _, _⟩
    rw [hbb, ok_bind]
    by_cases hlen : (i0 :: t).length < MIN_OBJECTS_IN_LEAF
    · rw [if_pos hlen]
      intro hcon; cases hcon
    · rw [if_neg hlen]
      obtain ⟨hLne, hRne⟩ :=
        kd_partitions_ne_nil objs (i0 :: t) axis (List.cons_ne_nil i0 t) (boundsAt_wf hwf)
      have hLsub : ∀ i ∈ kdLeft objs (i0 :: t) axis, i < objs.length :=
        fun i hi => hb i (List.mem_of_mem_filter hi)
      have hRsub : ∀ i ∈ kdRight objs (i0 :: t) axis, i < objs.length :=
        fun i hi => hb i (List.mem_of_mem_filter hi)
      cases hL : buildNode objs fuel (kdLeft objs (i0 :: t) axis) ((axis + 1) % 3) with
      | error e =>
        rw [error_bind]
        cases e with
        | fuelOut => intro hcon; cases hcon
        | indexOutOfBounds => exact absurd hL (ih _ ((axis + 1) % 3) hLne hLsub)
      | ok l =>
        rw [ok_bind]
        cases hR : buildNode objs fuel (kdRight objs (i0 :: t) axis) ((axis + 1) % 3) with
        | error e =>
          rw [error_bind]
          cases e with
          | fuelOut => intro hcon; cases hcon
          | indexOutOfBounds => exact absurd hR (ih _ ((axis + 1) % 3) hRne hRsub)
        | ok r =>
          rw [ok_bind]
          intro hcon; cases hcon

/-- C10 counterexample: `from_objects` on the empty collection hits the
out-of-bounds access `object_idxs[0]` (a panic in Rust). -/
theorem kd_from_objects_empty_oob :
    kdFromObjects [] 1 = Except.error BuildError.indexOutOfBounds := rfl

/-- C10 (amended): on every *non-empty* collection with well-formed
bounds, every index access of the build is in bounds — the build never
reaches the panic (it may run out of fuel, but never indexes out of
bounds); on the empty collection the initial `object_idxs[0]` access is
out of bounds. -/
theorem kd_from_objects_no_oob (objs : List Obj) (hne : objs ≠ [])
    (hwf : ∀ o ∈ objs, o.bounds.wf) (fuel : Nat) :
    kdFromObjects objs fuel ≠ Except.error BuildError.indexOutOfBounds := by
  unfold kdFromObjects
  have h1 : List.range objs.length ≠ [] := by
    simp only [ne_eq, List.range_eq_nil]
    exact fun h => hne (List.length_eq_zero.mp h)
  have h2 : ∀ i ∈ List.range objs.length, i < objs.length :=
    fun i hi => List.mem_range.mp hi
  have hno := buildNode_no_oob objs hwf fuel (List.range objs.length) 0 h1 h2
  cases hB : buildNode objs fuel (List.range objs.length) 0 with
  | error e =>
    rw [error_bind]
    cases e with
    | fuelOut => intro hcon; cases hcon
    | indexOutOfBounds => exact absurd hB hno
  | ok root =>
    rw [ok_bind]
    intro hcon; cases hcon

/-- Witness for `kd_from_objects_no_oob` on a single unit-cube object. -/
theorem kd_from_objects_no_oob_witness :
    ([unitObj] ≠ ([] : List Obj)) ∧ (∀ o ∈ [unitObj], o.bounds.wf) ∧
    kdFromObjects [unitObj] 1 ≠ Except.error BuildError.indexOutOfBounds := by
  have hwf : ∀ o ∈ [unitObj], o.bounds.wf := by
    intro o ho
    rw [List.mem_singleton.mp ho]
    exact ⟨by norm_num [unitObj], by norm_num [unitObj], by norm_num [unitObj]⟩
  exact ⟨by simp, hwf, kd_from_objects_no_oob [unitObj] (by simp) hwf 1⟩

/-- The union of the leaves' index sets below any successfully built
node is exactly the node's input index set. -/
theorem buildNode_leaves_cover (objs : List Obj) (hwf : ∀ i, (boundsAt objs i).wf) :
    ∀ fuel idxs axis nd, buildNode objs fuel idxs axis = Except.ok nd →
      ∀ j, j ∈ nd.leafIndices ↔ j ∈ idxs := by
  intro fuel
  induction fuel with
  | zero =>
    intro idxs axis nd h
    simp [buildNode] at h
  | succ fuel ih =>
    intro idxs axis nd h
    rcases idxs with _ | ⟨i0, t⟩
    · rw [buildNode] at h
      simp [headIdx, error_bind] at h
    rw [buildNode, show headIdx (i0 :: t) = Except.ok i0 from rfl, ok_bind] at h
    cases hg : getObj objs i0 with
    | error e => rw [hg, error_bind] at h; cases h
    | ok o0 =>
      rw [hg, ok_bind] at h
      cases hbb : kdBBox objs (i0 :: t) o0.bounds with
      | error e => rw [hbb, error_bind] at h; cases h
      | ok bb =>
        rw [hbb, ok_bind] at h
        by_cases hlen : (i0 :: t).length < MIN_OBJECTS_IN_LEAF
        · rw [if_pos hlen] at h
          cases h
          intro j
          rfl
        · rw [if_neg hlen] at h
          cases hL : buildNode objs fuel (kdLeft objs (i0 :: t) axis) ((axis + 1) % 3) with
          | error e => rw [hL, error_bind] at h; cases h
          | ok l =>
            rw [hL, ok_bind] at h
            cases hR : buildNode objs fuel (kdRight objs (i0 :: t) axis) ((axis + 1) % 3) with
            | error e => rw [hR, error_bind] at h; cases h
            | ok r =>
              rw [hR, ok_bind] at h
              cases h
              intro j
              show j ∈ l.leafIndices ++ r.leafIndices ↔ j ∈ i0 :: t
              rw [List.mem_append, ih _ _ l hL j, ih _ _ r hR j]
              constructor
              · rintro (hj | hj)
                · exact List.mem_of_mem_filter hj
                · exact List.mem_of_mem_filter hj
              · intro hj
                by_cases hc : (boundsAt objs j).min.get axis ≤ kdMedian objs (i0 :: t) axis
                · exact Or.inl (List.mem_filter.mpr ⟨hj, decide_eq_true hc⟩)
                · refine Or.inr (List.mem_filter.mpr ⟨hj, decide_eq_true ?_⟩)
                  exact le_trans (le_of_lt (not_le.mp hc)) (wf_get (hwf j) axis)

/-- C5: in a successfully built kd-tree the union of the index sets in
all leaves is exactly `{0, …, n-1}`. -/
theorem kd_leaves_cover (objs : List Obj) (hwf : ∀ o ∈ objs, o.bounds.wf)
    (fuel : Nat) (t : KdTree) (h : kdFromObjects objs fuel = Except.ok t) :
    ∀ j, j ∈ t.root.leafIndices ↔ j < objs.length := by
  unfold kdFromObjects at h
  cases hB : buildNode objs fuel (List.range objs.length) 0 with
  | error e => rw [hB, error_bind] at h; cases h
  | ok root =>
    rw [hB, ok_bind] at h
    cases h
    intro j
    rw [show (⟨root, objs⟩ : KdTree).root = root from rfl,
      buildNode_leaves_cover objs (boundsAt_wf hwf) fuel _ 0 root hB j, List.mem_range]

/-- Witness for `kd_leaves_cover` on a single unit-cube object. -/
theorem kd_leaves_cover_witness :
    (∀ o ∈ [unitObj], o.bounds.wf) ∧
    kdFromObjects [unitObj] 1
      = Except.ok ⟨Node.leaf ⟨⟨0, 0, 0⟩, ⟨1, 1, 1⟩⟩ [0], [unitObj]⟩ ∧
    ((0 : Nat) ∈ (Node.leaf (⟨⟨0, 0, 0⟩, ⟨1, 1, 1⟩⟩ : AABBox) [0]).leafIndices
      ↔ 0 < ([unitObj] : List Obj).length) := by
  have hwf : ∀ o ∈ [unitObj], o.bounds.wf := by
    intro o ho
    rw [List.mem_singleton.mp ho]
    exact ⟨by norm_num [unitObj], by norm_num [unitObj], by norm_num [unitObj]⟩
  exact ⟨hwf, rfl, kd_leaves_cover [unitObj] hwf 1 _ rfl 0⟩

/-- C6 (amended): `Sphere::intersect` returns `None` exactly when the
discriminant is ≤ 0 or both roots `d1 = (p+q)/2`, `d2 = (p-q)/2` are
negative; otherwise it returns the hit built at `d = d1` when
`d1 > 0 ∧ d2 < 0`, else at `d = d2` (the smaller root — even when
`d1 = 0` and `d2 < 0`, where the code takes `min d1 d2 = d2 < 0` and so
reports a hit behind the ray origin instead of at the non-negative
root). -/
theorem sphere_intersect_root_policy (s : Sphere) (ray : RayR) (rand : Vec3R)
    (p q d1 d2 : ℝ)
    (hp : p = -2 * (ray.dir.dot (ray.origin.sub s.center)))
    (hq : q = Real.sqrt (s.delta ray))
    (h1 : d1 = (p + q) / 2)
    (h2 : d2 = (p - q) / 2) :
    (s.intersect ray rand = none ↔ s.delta ray ≤ 0 ∨ (d1 < 0 ∧ d2 < 0)) ∧
    (0 < s.delta ray → ¬(d1 < 0 ∧ d2 < 0) →
      s.intersect ray rand
        = some (sphereHitAt s ray rand (if 0 < d1 ∧ d2 < 0 then d1 else d2))) := by
  have hqn : 0 ≤ q := hq ▸ Real.sqrt_nonneg _
  have hd21 : d2 ≤ d1 := by rw [h1, h2]; linarith
  constructor
  · simp only [Sphere.intersect]
    rw [← hp, ← hq, ← h1, ← h2]
    split_ifs with hA hB
    · simp [hA]
    · simp [hB]
    · simp [hA, hB]
  · intro h0 hn
    simp only [Sphere.intersect]
    rw [← hp, ← hq, ← h1, ← h2, if_neg (not_le.mpr h0), if_neg hn]
    have hdd : (if 0 < d1 ∧ d2 < 0 then d1 else if d1 < 0 ∧ 0 < d2 then d2
        else Min.min d1 d2) = (if 0 < d1 ∧ d2 < 0 then d1 else d2) := by
      by_cases hc : 0 < d1 ∧ d2 < 0
      · rw [if_pos hc, if_pos hc]
      · rw [if_neg hc, if_neg hc,
          if_neg (fun hcc : d1 < 0 ∧ 0 < d2 => absurd hd21 (by push_neg; linarith [hcc.1, hcc.2]))]
        exact min_eq_right hd21
    rw [hdd]

/-- C6 counterexample: unit sphere at the origin, ray starting on the
surface at `(1,0,0)` pointing along `+x`.  Here `delta = 4`, `p = -2`,
so `d1 = 0` and `d2 = -2`: exactly one root is non-negative and the
claim's `d` is `0` (hit at `x = 1`, returned origin `x = 1.001`), but
the code takes `min d1 d2 = -2` and the returned hit origin has
`x = -1.001`, behind the ray. -/
theorem sphere_root_policy_cex :
    Sphere.delta sphereC6 rayC6 = 4 ∧
    (Sphere.intersect sphereC6 rayC6 ⟨0, 0, 0⟩).map (fun h => h.origin.x)
      = some (-1.001 : ℝ) ∧
    ((-1.001 : ℝ) ≠ 1.001 ∧ (-1.001 : ℝ) ≠ 1) := by
  have hd : Sphere.delta sphereC6 rayC6 = 4 := by
    norm_num [Sphere.delta, sphereC6, rayC6, Vec3R.dot, Vec3R.sub, Vec3R.lengthSquared]
  have h4 : Real.sqrt 4 = 2 := by
    rw [show (4 : ℝ) = 2 ^ 2 by norm_num]
    exact Real.sqrt_sq (by norm_num)
  refine ⟨hd, ?_, by norm_num, by norm_num⟩
  simp only [Sphere.intersect, hd, h4]
  norm_num [sphereC6, rayC6, sphereHitAt, RayR.new, Vec3R.dot, Vec3R.sub, Vec3R.add,
    Vec3R.smul, Vec3R.normalize, Vec3R.length, Vec3R.lengthSquared, Real.sqrt_one,
    min_def]

/-- Witness for `sphere_intersect_root_policy`: unit sphere at
`(0,0,3)`, ray from the origin along `+z`: `delta = 4`, `p = 6`,
roots `d1 = 4`, `d2 = 2`, hit at `d = 2`. -/
theorem sphere_intersect_root_policy_witness :
    (0 < Sphere.delta sphereZ3 rayZ ∧ ¬((4 : ℝ) < 0 ∧ (2 : ℝ) < 0)) ∧
    Sphere.intersect sphereZ3 rayZ ⟨0, 0, 0⟩
      = some (sphereHitAt sphereZ3 rayZ ⟨0, 0, 0⟩ 2) := by
  have hd : Sphere.delta sphereZ3 rayZ = 4 := by
    norm_num [Sphere.delta, sphereZ3, rayZ, Vec3R.dot, Vec3R.sub, Vec3R.lengthSquared]
  have h4 : Real.sqrt 4 = 2 := by
    rw [show (4 : ℝ) = 2 ^ 2 by norm_num]
    exact Real.sqrt_sq (by norm_num)
  have happ := (sphere_intersect_root_policy sphereZ3 rayZ ⟨0, 0, 0⟩ 6 2 4 2
    (by norm_num [sphereZ3, rayZ, Vec3R.dot, Vec3R.sub])
    (by rw [hd, h4]) (by norm_num) (by norm_num)).2
    (by rw [hd]; norm_num) (by norm_num)
  rw [if_neg (by norm_num)] at happ
  exact ⟨⟨by rw [hd]; norm_num, by norm_num⟩, happ⟩

/-- C7: when the scene object set reports no hit, `trace_ray` returns
exactly 1.0 iff some light sphere intersects the ray (0.0 when none
does), for every positive bounce budget and every jitter value. -/
theorem trace_ray_no_scene_hit (ray : RayR) (objects : ObjR) (lights : List Sphere)
    (steps : Nat) (rand : Vec3R) (hobj : objects.intersect ray = none)
    (hsteps : 0 < steps) :
    ((∃ l ∈ lights, l.intersect ray rand ≠ none) →
      traceRay objects lights rand ray steps = 1) ∧
    ((∀ l ∈ lights, l.intersect ray rand = none) →
      traceRay objects lights rand ray steps = 0) := by
  have _ := hsteps
  rw [traceRay, hobj]
  constructor
  · rintro ⟨l0, hl0, hne⟩
    rcases Option.ne_none_iff_exists'.mp hne with ⟨n0, hn0⟩
    have hmem0 : ((n0.origin.sub ray.origin).lengthSquared, n0, true) ∈
        lights.filterMap (fun light => (light.intersect ray rand).map
          (fun normal => ((normal.origin.sub ray.origin).lengthSquared, normal, true))) :=
      List.mem_filterMap.mpr ⟨l0, hl0, by rw [hn0]; rfl⟩
    have hnil : lights.filterMap (fun light => (light.intersect ray rand).map
        (fun normal => ((normal.origin.sub ray.origin).lengthSquared, normal, true))) ≠ [] :=
      List.ne_nil_of_mem hmem0
    obtain ⟨e, hee⟩ := Option.ne_none_iff_exists'.mp
      (minByFirst_ne_none (fun e => e.1) _ hnil)
    have hmem := minByFirst_mem (fun e => e.1) _ e hee
    rcases List.mem_filterMap.mp hmem with ⟨lgt, _, hmap⟩
    rcases Option.map_eq_some'.mp hmap with ⟨n, _, hEq⟩
    simp only [List.nil_append, hee, ← hEq]
  · intro hall
    have hnil : lights.filterMap (fun light => (light.intersect ray rand).map
        (fun normal => ((normal.origin.sub ray.origin).lengthSquared, normal, true))) = [] :=
      List.filterMap_eq_nil.mpr (fun l hl => by rw [hall l hl]; rfl)
    simp only [List.nil_append, hnil]
    rfl

/-- Witness for `trace_ray_no_scene_hit`: no scene objects, one light
sphere straight ahead gives 1.0; no lights gives 0.0. -/
theorem trace_ray_no_scene_hit_witness :
    objNoneR.intersect rayZ = none ∧ (0 : Nat) < 3 ∧
    Sphere.intersect sphereZ3 rayZ ⟨0, 0, 0⟩ ≠ none ∧
    traceRay objNoneR [sphereZ3] ⟨0, 0, 0⟩ rayZ 3 = 1 ∧
    traceRay objNoneR [] ⟨0, 0, 0⟩ rayZ 3 = 0 := by
  have hobj : objNoneR.intersect rayZ = none := rfl
  have hd : Sphere.delta sphereZ3 rayZ = 4 := by
    norm_num [Sphere.delta, sphereZ3, rayZ, Vec3R.dot, Vec3R.sub, Vec3R.lengthSquared]
  have h4 : Real.sqrt 4 = 2 := by
    rw [show (4 : ℝ) = 2 ^ 2 by norm_num]
    exact Real.sqrt_sq (by norm_num)
  have hlight : Sphere.intersect sphereZ3 rayZ ⟨0, 0, 0⟩ ≠ none := by
    simp only [Sphere.intersect, hd, h4]
    norm_num [sphereZ3, rayZ, Vec3R.dot, Vec3R.sub]
    exact Option.some_ne_none _
  refine ⟨hobj, by norm_num, hlight, ?_, ?_⟩
  · exact (trace_ray_no_scene_hit rayZ objNoneR [sphereZ3] 3 ⟨0, 0, 0⟩ hobj
      (by norm_num)).1 ⟨sphereZ3, List.mem_singleton_self _, hlight⟩
  · exact (trace_ray_no_scene_hit rayZ objNoneR [] 3 ⟨0, 0, 0⟩ hobj
      (by norm_num)).2 (fun l hl => absurd hl (List.not_mem_nil l))

/-- Growing a well-formed slab interval on one axis can only grow the
parametric window. -/
theorem interval_mono {lo hi lo' hi' o r : ℚ} (hwf : lo ≤ hi) (h1 : lo' ≤ lo)
    (h2 : hi ≤ hi') :
    Min.min ((lo' - o) * r) ((hi' - o) * r) ≤ Min.min ((lo - o) * r) ((hi - o) * r) ∧
    Max.max ((lo - o) * r) ((hi - o) * r) ≤ Max.max ((lo' - o) * r) ((hi' - o) * r) := by
  rcases le_total 0 r with hr | hr
  · have hab : (lo - o) * r ≤ (hi - o) * r := by nlinarith
    have hab' : (lo' - o) * r ≤ (hi' - o) * r := by nlinarith
    have e1 : (lo' - o) * r ≤ (lo - o) * r := by nlinarith
    have e2 : (hi - o) * r ≤ (hi' - o) * r := by nlinarith
    rw [min_eq_left hab, min_eq_left hab', max_eq_right hab, max_eq_right hab']
    exact ⟨e1, e2⟩
  · have hab : (hi - o) * r ≤ (lo - o) * r := by nlinarith
    have hab' : (hi' - o) * r ≤ (lo' - o) * r := by nlinarith
    have e1 : (hi' - o) * r ≤ (hi - o) * r := by nlinarith
    have e2 : (lo - o) * r ≤ (lo' - o) * r := by nlinarith
    rw [min_eq_right hab, min_eq_right hab', max_eq_left hab, max_eq_left hab']
    exact ⟨e1, e2⟩

/-- A wider final window cannot turn a hit into a miss. -/
theorem finishSlab_mono {A B A' B' : ℚ} (r : Ray) (hA : A' ≤ A) (hB : B ≤ B')
    (h : AABBox.finishSlab (some A, some B) r ≠ none) :
    AABBox.finishSlab (some A', some B') r ≠ none := by
  simp only [AABBox.finishSlab] at h ⊢
  by_cases hab : A ≤ B
  · rw [if_pos (le_trans hA (le_trans hab hB))]
    exact Option.some_ne_none _
  · rw [if_neg hab] at h
    exact absurd rfl h

/-- Slab-test monotonicity: a ray hitting a well-formed box also hits
every enclosing box. -/
theorem slab_mono (b b' : AABBox) (ray : Ray) (hwf : b.wf) (hsub : b.subset b')
    (h : AABBox.intersectRay b ray ≠ none) : AABBox.intersectRay b' ray ≠ none := by
  obtain ⟨hwx, hwy, hwz⟩ := hwf
  obtain ⟨s1, s2, s3, s4, s5, s6⟩ := hsub
  have Hx := interval_mono (o := ray.origin.x) (r := ray.dirRecip.x) hwx s1 s4
  have Hy := interval_mono (o := ray.origin.y) (r := ray.dirRecip.y) hwy s2 s5
  have Hz := interval_mono (o := ray.origin.z) (r := ray.dirRecip.z) hwz s3 s6
  unfold AABBox.intersectRay at h ⊢
  split_ifs at h ⊢ with h1 h2 h3
  all_goals simp only [AABBox.tighten] at h ⊢
  · exact finishSlab_mono ray (max_le_max (max_le_max Hx.1 Hy.1) Hz.1)
      (min_le_min (min_le_min Hx.2 Hy.2) Hz.2) h
  · exact finishSlab_mono ray (max_le_max Hx.1 Hy.1) (min_le_min Hx.2 Hy.2) h
  · exact finishSlab_mono ray (max_le_max Hx.1 Hz.1) (min_le_min Hx.2 Hz.2) h
  · exact finishSlab_mono ray Hx.1 Hx.2 h
  · exact finishSlab_mono ray (max_le_max Hy.1 Hz.1) (min_le_min Hy.2 Hz.2) h
  · exact finishSlab_mono ray Hy.1 Hy.2 h
  · exact finishSlab_mono ray Hz.1 Hz.2 h
  · simp [AABBox.finishSlab]

/-- Testing `all_objects[idx]` over `0..n-1` is testing every object. -/
theorem filterMap_range_getElem {α β : Type*} (f : α → Option β) :
    ∀ (objs : List α),
      (List.range objs.length).filterMap (fun i => (objs[i]?).bind f)
        = objs.filterMap f := by
  intro objs
  induction objs with
  | nil => rfl
  | cons a t ih =>
    have hcomp : ((fun i => (((a :: t) : List α)[i]?).bind f) ∘ Nat.succ)
        = fun i => (t[i]?).bind f := by
      funext i
      simp [List.getElem?_cons_succ]
    rw [show (a :: t).length = t.length + 1 from rfl, List.range_succ_eq_map,
      List.filterMap_cons, List.filterMap_map, hcomp, ih]
    cases hfa : f a with
    | none => simp [List.filterMap_cons, hfa]
    | some b => simp [List.filterMap_cons, hfa]

/-- When no two candidates are equidistant, the octree's tie-breaking
minimum agrees with the first-of-equals minimum. -/
theorem minByOct_eq_minByFirst {α : Type*} (d : α → ℚ) :
    ∀ (l : List α), l.Pairwise (fun a b => d a ≠ d b) →
      minByOct d l = minByFirst d l := by
  have aux : ∀ (l : List α) (a : α), (∀ x ∈ l, d a ≠ d x) →
      l.Pairwise (fun a b => d a ≠ d b) →
      l.foldl (minByOctStep d) (some a) = l.foldl (minByFirstStep d) (some a) := by
    intro l
    induction l with
    | nil => intro a _ _; rfl
    | cons x xs ih =>
      intro a ha hp
      have hax : d a ≠ d x := ha x (List.mem_cons_self x xs)
      have hstep : minByOctStep d (some a) x = minByFirstStep d (some a) x := by
        show (if d a < d x then some a else some x)
          = (if d x < d a then some x else some a)
        rcases lt_trichotomy (d a) (d x) with hlt | heq | hgt
        · rw [if_pos hlt, if_neg (not_lt.mpr hlt.le)]
        · exact absurd heq hax
        · rw [if_neg (not_lt.mpr hgt.le), if_pos hgt]
      have hacc : minByFirstStep d (some a) x = some (if d x < d a then x else a) := by
        show (if d x < d a then some x else some a) = _
        split_ifs <;> rfl
      rw [List.foldl_cons, List.foldl_cons, hstep, hacc]
      apply ih
      · intro y hy
        split_ifs with hc
        · exact (List.pairwise_cons.mp hp).1 y hy
        · exact ha y (List.mem_cons_of_mem x hy)
      · exact (List.pairwise_cons.mp hp).2
  intro l hp
  cases l with
  | nil => rfl
  | cons x xs =>
    unfold minByOct minByFirst
    rw [List.foldl_cons, List.foldl_cons,
      show minByOctStep d none x = some x from rfl,
      show minByFirstStep d none x = some x from rfl]
    exact aux xs x (List.pairwise_cons.mp hp).1 (List.pairwise_cons.mp hp).2

/-- Below the leaf threshold, a successful kd-tree build is a single
leaf whose box contains every object's bounds. -/
theorem kdFromObjects_small (objs : List Obj) (fuel : Nat) (t : KdTree)
    (hne : objs ≠ []) (hsmall : objs.length < MIN_OBJECTS_IN_LEAF)
    (h : kdFromObjects objs fuel = Except.ok t) :
    ∃ bb, t = ⟨Node.leaf bb (List.range objs.length), objs⟩ ∧
      ∀ o ∈ objs, o.bounds.subset bb := by
  cases fuel with
  | zero => simp [kdFromObjects, buildNode] at h
  | succ fuel =>
    unfold kdFromObjects at h
    rw [buildNode] at h
    rcases objs with _ | ⟨o0, rest⟩
    · exact absurd rfl hne
    have hh : headIdx (List.range (o0 :: rest).length) = Except.ok 0 := by
      unfold headIdx
      rw [show (o0 :: rest).length = rest.length + 1 from rfl, List.range_succ_eq_map]
      rfl
    rw [hh, ok_bind, show getObj (o0 :: rest) 0 = Except.ok o0 from by
      unfold getObj; rw [List.getElem?_cons_zero], ok_bind] at h
    rcases kdBBox_ok (o0 :: rest) (List.range (o0 :: rest).length)
      (fun i hi => List.mem_range.mp hi) o0.bounds with ⟨bb, hbb, _, hall⟩
    rw [hbb, ok_bind, if_pos (show (List.range (o0 :: rest).length).length
      < MIN_OBJECTS_IN_LEAF by rwa [List.length_range])] at h
    cases h
    refine ⟨bb, rfl, fun o ho => ?_⟩
    rcases List.getElem_of_mem ho with ⟨i, hi, hoi⟩
    have hsubi := hall i (List.mem_range.mpr hi)
    rwa [show boundsAt (o0 :: rest) i = o.bounds from by
      unfold boundsAt; rw [List.getElem?_eq_getElem hi, hoi]] at hsubi

/-- At or below the octree leaf threshold, a successful build is a
single leaf octant holding every object. -/
theorem octreeNew_small (objs : List Obj) (maxDepth maxObj : Nat) (bbox : AABBox)
    (fuel : Nat) (ot : Octree) (hleaf : objs.length ≤ maxObj)
    (h : octreeNew objs maxDepth maxObj bbox fuel = Except.ok ot) :
    ot = ⟨some (Octant.mk bbox (List.replicate 8 none) objs)⟩ := by
  cases fuel with
  | zero => simp [octreeNew, octantNew] at h
  | succ fuel =>
    unfold octreeNew at h
    rw [octantNew, if_pos (Or.inr hleaf), ok_bind] at h
    cases h
    rfl

/-- On a leaf octant (all children empty) the traversal is the box
test followed by the octree-minimum over the held objects' hits: the
child pass over eight `None` children contributes nothing. -/
theorem octant_intersect_leaf (bbox : AABBox) (objs : List Obj) (ray : Ray) :
    Octant.intersect ray (Octant.mk bbox (List.replicate 8 none) objs)
      = match AABBox.intersectRay bbox ray with
        | none => none
        | some _ => minByOct (fun h => ray.origin.distanceSquared h.origin)
            (objs.filterMap (fun o => o.intersect ray)) := by
  rw [Octant.intersect]
  cases AABBox.intersectRay bbox ray with
  | none => rfl
  | some w => rfl

/-- C1: for a small primitive set (below both leaf thresholds), the
KdTree built over it and the Octree built over it with an enclosing
bounding box both report exactly the brute-force nearest hit.
Hypotheses: bounds are well-formed, a primitive that hits the ray also
hits its own bounding box (true of real primitives in exact
arithmetic), and no two candidate hits are exactly equidistant (the
aggregators tie-break in opposite directions). -/
theorem kd_octree_match_brute_force (objs : List Obj) (ray : Ray)
    (fuel ofuel maxDepth maxObj : Nat) (t : KdTree) (ot : Octree) (bbox : AABBox)
    (hne : objs ≠ []) (hsmall : objs.length < MIN_OBJECTS_IN_LEAF)
    (hwf : ∀ o ∈ objs, o.bounds.wf)
    (hsound : ∀ o ∈ objs, o.intersect ray ≠ none → AABBox.intersectRay o.bounds ray ≠ none)
    (hencl : ∀ o ∈ objs, o.bounds.subset bbox)
    (hleaf : objs.length ≤ maxObj)
    (hties : (objs.filterMap (fun o => o.intersect ray)).Pairwise
      (fun a b => ray.origin.distanceSquared a.origin
        ≠ ray.origin.distanceSquared b.origin))
    (hkd : kdFromObjects objs fuel = Except.ok t)
    (hoct : octreeNew objs maxDepth maxObj bbox ofuel = Except.ok ot) :
    t.intersect ray = bruteForce objs ray ∧ ot.intersect ray = bruteForce objs ray := by
  rcases kdFromObjects_small objs fuel t hne hsmall hkd with ⟨bb, rfl, hsub⟩
  have hoct' := octreeNew_small objs maxDepth maxObj bbox ofuel ot hleaf hoct
  subst hoct'
  constructor
  · show Node.intersect (Node.leaf bb (List.range objs.length)) ray 0 objs
      = bruteForce objs ray
    cases hslab : AABBox.intersectRay bb ray with
    | none =>
      have hallnone : ∀ o ∈ objs, o.intersect ray = none := by
        intro o ho
        by_contra hcon
        exact slab_mono o.bounds bb ray (hwf o ho) (hsub o ho) (hsound o ho hcon) hslab
      have hbrute : bruteForce objs ray = none := by
        unfold bruteForce
        rw [List.filterMap_eq_nil.mpr hallnone]
        rfl
      rw [hbrute]
      simp [Node.intersect, Node.bounds, hslab]
    | some w =>
      simp only [Node.intersect, Node.bounds, hslab]
      rw [filterMap_range_getElem]
      rfl
  · show Octree.intersect ⟨some (Octant.mk bbox (List.replicate 8 none) objs)⟩ ray
      = bruteForce objs ray
    rw [show Octree.intersect ⟨some (Octant.mk bbox (List.replicate 8 none) objs)⟩ ray
      = Octant.intersect ray (Octant.mk bbox (List.replicate 8 none) objs) from rfl]
    cases hslab : AABBox.intersectRay bbox ray with
    | none =>
      have hallnone : ∀ o ∈ objs, o.intersect ray = none := by
        intro o ho
        by_contra hcon
        exact slab_mono o.bounds bbox ray (hwf o ho) (hencl o ho) (hsound o ho hcon) hslab
      have hbrute : bruteForce objs ray = none := by
        unfold bruteForce
        rw [List.filterMap_eq_nil.mpr hallnone]
        rfl
      rw [hbrute, octant_intersect_leaf, hslab]
    | some w =>
      rw [octant_intersect_leaf, hslab]
      exact minByOct_eq_minByFirst _ _ hties

/-- Witness for `kd_octree_match_brute_force`: one axis-aligned-box
primitive (the unit cube), a ray entering it along `+x`, kd-tree fuel 1
and an octree with `max_depth = 1`, `max_objects_in_leaf = 1` over an
enclosing box. -/
theorem kd_octree_match_brute_force_witness :
    kdFromObjects [boxObjW] 1
        = Except.ok ⟨Node.leaf ⟨⟨0, 0, 0⟩, ⟨1, 1, 1⟩⟩ [0], [boxObjW]⟩ ∧
    octreeNew [boxObjW] 1 1 bigBoxW 1
        = Except.ok ⟨some (Octant.mk bigBoxW (List.replicate 8 none) [boxObjW])⟩ ∧
    KdTree.intersect ⟨Node.leaf ⟨⟨0, 0, 0⟩, ⟨1, 1, 1⟩⟩ [0], [boxObjW]⟩ rayW1
        = bruteForce [boxObjW] rayW1 ∧
    Octree.intersect ⟨some (Octant.mk bigBoxW (List.replicate 8 none) [boxObjW])⟩ rayW1
        = bruteForce [boxObjW] rayW1 := by
  have hbx : boxObjW.intersect rayW1 = some rayW1 := by
    show AABBox.intersectRay ⟨⟨0, 0, 0⟩, ⟨1, 1, 1⟩⟩ rayW1 = some rayW1
    norm_num [rayW1, AABBox.intersectRay, AABBox.tighten, AABBox.finishSlab]
  have hkd : kdFromObjects [boxObjW] 1
      = Except.ok ⟨Node.leaf ⟨⟨0, 0, 0⟩, ⟨1, 1, 1⟩⟩ [0], [boxObjW]⟩ := rfl
  have hoct : octreeNew [boxObjW] 1 1 bigBoxW 1
      = Except.ok ⟨some (Octant.mk bigBoxW (List.replicate 8 none) [boxObjW])⟩ := rfl
  have happ := kd_octree_match_brute_force [boxObjW] rayW1 1 1 1 1
    ⟨Node.leaf ⟨⟨0, 0, 0⟩, ⟨1, 1, 1⟩⟩ [0], [boxObjW]⟩
    ⟨some (Octant.mk bigBoxW (List.replicate 8 none) [boxObjW])⟩ bigBoxW
    (by simp) (by decide)
    (fun o ho => by
      rw [List.mem_singleton.mp ho]
      exact ⟨by norm_num [boxObjW], by norm_num [boxObjW], by norm_num [boxObjW]⟩)
    (fun o ho h => by rw [List.mem_singleton.mp ho] at h ⊢; exact h)
    (fun o ho => by
      rw [List.mem_singleton.mp ho]
      show AABBox.subset ⟨⟨0, 0, 0⟩, ⟨1, 1, 1⟩⟩ bigBoxW
      unfold AABBox.subset bigBoxW
      norm_num)
    (by decide)
    (by simp [hbx, List.filterMap_cons])
    hkd hoct
  exact ⟨hkd, hoct, happ.1, happ.2⟩

end RayTracer
